import Mathlib

/-!
Shallow embedding of `src/DataAnalyzer.py` (a pandas-based data cleaning
script) and proofs about its cleaning pipeline, menu operations and loader.

Modelling conventions:
* pandas numeric values are modelled as exact fractions (`Frac`, an
  unnormalised `Int` numerator / positive `Int` denominator pair) so that
  every definition is kernel-computable; `Frac.toRat` interprets them in `ℚ`
  and the order-theoretic theorems are stated against that interpretation.
* Python strings are modelled as their sequences of code points
  (`List Nat`); `pychars` converts a Lean string literal.  The script only
  manipulates ASCII data (`str.lower`, `str.strip`, the character class
  `[^a-zA-Z0-9\s]`), which the code-point model captures exactly.
* A pandas `DataFrame` is a list of named, typed columns together with a
  list of rows of cells (`Cell.num`, `Cell.str`, `Cell.na` for `NaN`).
* Python object identity (needed for the `df.copy()` claims) is modelled by
  a small heap of frames addressed by `Nat` references.
-/

/-- Exact fraction: numerator and denominator, not normalised.  All
fractions built by the embedding keep `0 < den`. -/
structure Frac where
  num : Int
  den : Int
deriving DecidableEq, Repr

/-- Build the fraction `a / b`. -/
def fr (a b : Int) : Frac := ⟨a, b⟩

/-- Embed an integer as a fraction. -/
def Frac.ofInt (n : Int) : Frac := ⟨n, 1⟩

def Frac.add (a b : Frac) : Frac := ⟨a.num * b.den + b.num * a.den, a.den * b.den⟩

def Frac.sub (a b : Frac) : Frac := ⟨a.num * b.den - b.num * a.den, a.den * b.den⟩

def Frac.mul (a b : Frac) : Frac := ⟨a.num * b.num, a.den * b.den⟩

instance : Add Frac := ⟨Frac.add⟩
instance : Sub Frac := ⟨Frac.sub⟩
instance : Mul Frac := ⟨Frac.mul⟩

/-- Boolean `≤` on fractions by cross multiplication (valid for positive
denominators). -/
def Frac.ble (a b : Frac) : Bool := decide (a.num * b.den ≤ b.num * a.den)

/-- Boolean `<` on fractions by cross multiplication (valid for positive
denominators). -/
def Frac.blt (a b : Frac) : Bool := decide (a.num * b.den < b.num * a.den)

/-- Boolean value equality on fractions by cross multiplication. -/
def Frac.beq (a b : Frac) : Bool := decide (a.num * b.den = b.num * a.den)

/-- Interpretation of a fraction as a rational number. -/
def Frac.toRat (a : Frac) : ℚ := (a.num : ℚ) / (a.den : ℚ)

/-- The denominator is positive (the invariant of the embedding). -/
def Frac.Pos (a : Frac) : Prop := 0 < a.den

instance (a : Frac) : Decidable a.Pos := by
  unfold Frac.Pos
  infer_instance

/- ---------------------------------------------------------------------
Python string values as lists of code points.
--------------------------------------------------------------------- -/

/-- Code points of a Lean string literal, used to write concrete Python
string values. -/
def pychars (s : String) : List Nat := s.data.map Char.toNat

/-- The ASCII whitespace code points matched both by `str.strip()` and by
the regex class `\s`: space, tab, newline, carriage return, vertical tab,
form feed. -/
def isSpaceNat (n : Nat) : Bool :=
  decide (n = 32 ∨ n = 9 ∨ n = 10 ∨ n = 13 ∨ n = 11 ∨ n = 12)

/-- Code points kept by the substitution `[^a-zA-Z0-9\s] → ''`. -/
def isKeepNat (n : Nat) : Bool :=
  decide ((97 ≤ n ∧ n ≤ 122) ∨ (65 ≤ n ∧ n ≤ 90) ∨ (48 ≤ n ∧ n ≤ 57)) || isSpaceNat n

/-- `str.lower` on a single (ASCII) code point. -/
def lowerNat (n : Nat) : Nat := if 65 ≤ n ∧ n ≤ 90 then n + 32 else n

/-- `str.lower` on a whole string. -/
def lowerCodes (l : List Nat) : List Nat := l.map lowerNat

/-- `str.strip()`: remove leading and trailing whitespace. -/
def stripL (l : List Nat) : List Nat :=
  ((l.dropWhile isSpaceNat).reverse.dropWhile isSpaceNat).reverse

/-- The per-value effect of `clean_strings` (source lines 36–43): lowercase,
strip surrounding whitespace, delete every character outside
`[a-zA-Z0-9\s]`. -/
def cleanValue (l : List Nat) : List Nat :=
  (stripL (lowerCodes l)).filter isKeepNat

/-- `clean_strings` applied to a whole column (a pandas `Series` of
strings). -/
def clean_strings (column : List (List Nat)) : List (List Nat) :=
  column.map cleanValue

/- ---------------------------------------------------------------------
DataFrames.
--------------------------------------------------------------------- -/

/-- A pandas column dtype, as far as the script distinguishes them:
`is_numeric_dtype` columns versus `object` (string) columns. -/
inductive ColType
  | num
  | obj
deriving DecidableEq, Repr

/-- A cell of a DataFrame: a numeric value, a string value, or `NaN`. -/
inductive Cell
  | num (x : Frac)
  | str (s : List Nat)
  | na
deriving DecidableEq, Repr

/-- A numeric integer cell. -/
def Cell.int (n : Int) : Cell := Cell.num (Frac.ofInt n)

/-- A pandas DataFrame: named typed columns and rows of cells. -/
structure DataFrame where
  cols : List (String × ColType)
  rows : List (List Cell)
deriving DecidableEq, Repr

def emptyDF : DataFrame := ⟨[], []⟩

/-- dtype of the `i`-th column. -/
def colTypeAt (df : DataFrame) (i : Nat) : ColType :=
  (df.cols.getD i ("", ColType.obj)).2

/-- Value equality of cells, as pandas comparison sees it (`NaN` compares
equal to `NaN` for `drop_duplicates`). -/
def Cell.eqv : Cell → Cell → Bool
  | Cell.num a, Cell.num b => Frac.beq a b
  | Cell.str a, Cell.str b => a == b
  | Cell.na, Cell.na => true
  | _, _ => false

/-- Value equality of whole rows. -/
def rowEqv : List Cell → List Cell → Bool
  | [], [] => true
  | a :: as, b :: bs => Cell.eqv a b && rowEqv as bs
  | _, _ => false

/-- The cell's fraction, if any, has a positive denominator. -/
def Cell.posOk : Cell → Bool
  | Cell.num x => decide (0 < x.den)
  | _ => true

/-- All numeric cells of the frame carry well-formed (positive-denominator)
fractions. -/
def NumCellsPos (df : DataFrame) : Prop :=
  ∀ r ∈ df.rows, ∀ c ∈ r, Cell.posOk c = true

instance (df : DataFrame) : Decidable (NumCellsPos df) := by
  unfold NumCellsPos
  infer_instance

/- ---------------------------------------------------------------------
Quantiles (pandas `Series.quantile`, linear interpolation) and
`remove_outliers` (source lines 13–34).
--------------------------------------------------------------------- -/

/-- Insert into a sorted list of fractions. -/
def insertSorted (x : Frac) : List Frac → List Frac
  | [] => [x]
  | y :: ys => if Frac.ble x y then x :: y :: ys else y :: insertSorted x ys

/-- Insertion sort, ascending. -/
def sortQ : List Frac → List Frac
  | [] => []
  | x :: xs => insertSorted x (sortQ xs)

/-- Floor of a (non-negative) fractional position, as a natural index. -/
def qidx (h : Frac) : Nat := (Int.fdiv h.num h.den).toNat

/-- Linear interpolation of the sorted values `s` at fractional position
`h`: `s⌊h⌋ + (h − ⌊h⌋)·(s⌊h⌋₊₁ − s⌊h⌋)` (when `⌊h⌋` is the last index the
second order statistic is defaulted to the first and the term vanishes,
as `h − ⌊h⌋ = 0` there). -/
def qinterp (s : List Frac) (h : Frac) : Frac :=
  s.getD (qidx h) (Frac.ofInt 0) +
    (h - Frac.ofInt (qidx h)) *
      (s.getD (qidx h + 1) (s.getD (qidx h) (Frac.ofInt 0)) -
        s.getD (qidx h) (Frac.ofInt 0))

/-- pandas `Series.quantile(q)` with the default linear interpolation
between order statistics, evaluated at position `q·(n−1)` of the sorted
values.  (pandas skips `NaN`; callers pass the non-`NaN` values.  On an
empty series the result is never used by the script — the subsequent
filter keeps no row either way — and is set to `0`.) -/
def quantile (xs : List Frac) (q : Frac) : Frac :=
  if (sortQ xs).length = 0 then Frac.ofInt 0
  else qinterp (sortQ xs) (q * Frac.ofInt (((sortQ xs).length : Int) - 1))

/-- The outlier boundaries of source lines 22–29: `Q1 − 1.5·IQR` and
`Q3 + 1.5·IQR` with `IQR = Q3 − Q1`. -/
def iqrBounds (vals : List Frac) : Frac × Frac :=
  (quantile vals (fr 1 4) -
     fr 3 2 * (quantile vals (fr 3 4) - quantile vals (fr 1 4)),
   quantile vals (fr 3 4) +
     fr 3 2 * (quantile vals (fr 3 4) - quantile vals (fr 1 4)))

/-- The non-`NaN` numeric values of column `i` over the given rows. -/
def colVals (i : Nat) (rows : List (List Cell)) : List Frac :=
  rows.filterMap (fun r =>
    match r.getD i Cell.na with
    | Cell.num x => some x
    | _ => none)

/-- The row predicate of source line 32:
`(df[column] >= lower) & (df[column] <= upper)` — false on `NaN` and
non-numeric cells, as in pandas. -/
def inBounds (lo hi : Frac) : Cell → Bool
  | Cell.num x => Frac.ble lo x && Frac.ble x hi
  | _ => false

/-- One pass of the loop body of `remove_outliers` for column `i`: compute
the quartile bounds on the current rows and keep the rows inside them. -/
def outlierPass (rows : List (List Cell)) (i : Nat) : List (List Cell) :=
  rows.filter (fun r =>
    inBounds (iqrBounds (colVals i rows)).1 (iqrBounds (colVals i rows)).2
      (r.getD i Cell.na))

/-- Indices of the columns with a numeric dtype, in column order
(the columns visited by the `for column in df_cleaned.columns` loop that
pass `is_numeric_dtype`). -/
def numericIdxs (df : DataFrame) : List Nat :=
  (List.range df.cols.length).filter (fun i => colTypeAt df i == ColType.num)

/-- `remove_outliers` (source lines 13–34): sequentially, for each numeric
column, recompute the IQR bounds on the rows that survived the previous
columns and filter. -/
def remove_outliers (df : DataFrame) : DataFrame :=
  { df with rows := (numericIdxs df).foldl outlierPass df.rows }

/- ---------------------------------------------------------------------
The rest of the cleaning pipeline of `main` (source lines 157–178).
--------------------------------------------------------------------- -/

def isNa : Cell → Bool
  | Cell.na => true
  | _ => false

/-- `df.dropna()` (source line 158): drop each row containing a missing
value. -/
def dropna (df : DataFrame) : DataFrame :=
  { df with rows := df.rows.filter (fun r => !(r.any isNa)) }

/-- Keep-first deduplication: `seen` holds the already emitted rows. -/
def dedupAux : List (List Cell) → List (List Cell) → List (List Cell)
  | _, [] => []
  | seen, r :: rest =>
    if seen.any (fun s => rowEqv s r) then dedupAux seen rest
    else r :: dedupAux (r :: seen) rest

/-- `df.drop_duplicates()` (source line 166): remove exact duplicate rows,
keeping the first occurrence. -/
def drop_duplicates (df : DataFrame) : DataFrame :=
  { df with rows := dedupAux [] df.rows }

/-- Apply `f` cell-wise, each cell seeing its column's dtype (the shape of
the per-column loops of the source). -/
def mapCells (f : ColType → Cell → Cell) (df : DataFrame) : DataFrame :=
  { cols := df.cols
    rows := df.rows.map (fun r => List.zipWith f (df.cols.map Prod.snd) r) }

/-- The normalization loop of source lines 176–178: `clean_strings` on every
`object`-dtype column. -/
def cleanCell : ColType → Cell → Cell
  | ColType.obj, Cell.str s => Cell.str (cleanValue s)
  | _, c => c

def normalize_strings (df : DataFrame) : DataFrame := mapCells cleanCell df

/-- The unconditional cleaning pipeline of `main` (source lines 157–178):
drop missing, remove outliers, drop duplicates, normalize strings — in this
order. -/
def cleanPipeline (df : DataFrame) : DataFrame :=
  normalize_strings (drop_duplicates (remove_outliers (dropna df)))

/- ---------------------------------------------------------------------
Menu operations (source `optional_operations`, lines 45–93).
--------------------------------------------------------------------- -/

/-- Case 1 of the menu (source lines 73–79): on numeric columns replace
each value `x` with `0 if x < 0 else x`; other columns untouched. -/
def zeroNegCell : ColType → Cell → Cell
  | ColType.num, Cell.num x =>
      Cell.num (if Frac.blt x (Frac.ofInt 0) then Frac.ofInt 0 else x)
  | _, c => c

def zero_negatives (df : DataFrame) : DataFrame := mapCells zeroNegCell df

/-- `df.drop(name, axis=1)` (source line 88): `none` models the `KeyError`
pandas raises when no column has that label; otherwise every column
labelled `name` is removed, from the header and from every row. -/
def dropColumn (df : DataFrame) (name : String) : Option DataFrame :=
  if name ∈ df.cols.map Prod.fst then
    some
      { cols := df.cols.filter (fun p => p.1 != name)
        rows := df.rows.map (fun r =>
          ((df.cols.zip r).filter (fun p => p.1.1 != name)).map Prod.snd) }
  else none

/-- Case 2 of the menu (source lines 81–90): try the drop; on `KeyError`
the bare `except` prints an error and leaves the frame unchanged.  The
boolean records whether the error branch was taken. -/
def menuDropColumn (df : DataFrame) (name : String) : DataFrame × Bool :=
  match dropColumn df name with
  | some d => (d, false)
  | none => (df, true)

/- ---------------------------------------------------------------------
Loader dispatch in `main` (source lines 129–151).
--------------------------------------------------------------------- -/

/-- Does the pattern occur verbatim at the head of the list? -/
def startsHere : List Nat → List Nat → Bool
  | [], _ => true
  | _ :: _, [] => false
  | p :: ps, x :: xs => p == x && startsHere ps xs

/-- Python's `pat in s` substring test. -/
def containsSub (pat : List Nat) : List Nat → Bool
  | [] => startsHere pat []
  | x :: xs => startsHere pat (x :: xs) || containsSub pat xs

/-- Which reader `main` dispatches to (source lines 130–144): the checks
are `'.csv' in fileName` and `elif '.xlsx' in fileName` — substring
containment, in that order. -/
inductive LoadFmt
  | csv
  | xlsx
  | unsupported
deriving DecidableEq, Repr

def detectFormat (fileName : String) : LoadFmt :=
  if containsSub (pychars ".csv") (pychars fileName) then LoadFmt.csv
  else if containsSub (pychars ".xlsx") (pychars fileName) then LoadFmt.xlsx
  else LoadFmt.unsupported

/-- The load phase of `main` (source lines 129–146).  `csvRead` / `xlsxRead`
are the outcomes of `pd.read_csv` / `pd.read_excel` on this path (`none`
when the read raises: the `except` arms print a message and leave `df`
unassigned).  In the unsupported branch no reader is consulted and `df` is
likewise never assigned. -/
def loadPhase (fileName : String) (csvRead xlsxRead : Option DataFrame) :
    Option DataFrame :=
  match detectFormat fileName with
  | LoadFmt.csv => csvRead
  | LoadFmt.xlsx => xlsxRead
  | LoadFmt.unsupported => none

/-- Outcome of the first statement after the load phase
(`numOfRows = df.shape[0]`, source line 149). -/
inductive PostLoad
  | ok (numOfRows : Nat)
  | nameError
deriving DecidableEq, Repr

/-- Source line 149 runs unconditionally after the `try` blocks: if `df`
was never assigned, referencing it raises `NameError` and the process dies
there; otherwise the row count is taken and the pipeline continues. -/
def afterLoad : Option DataFrame → PostLoad
  | none => PostLoad.nameError
  | some df => PostLoad.ok df.rows.length

/- ---------------------------------------------------------------------
Stats reporter (source `calculate_stats`, lines 95–101).
--------------------------------------------------------------------- -/

/-- `df.select_dtypes(include=['number'])` (source line 97): keep exactly
the numeric-dtype columns. -/
def select_number (df : DataFrame) : DataFrame :=
  { cols := df.cols.filter (fun p => p.2 == ColType.num)
    rows := df.rows.map (fun r =>
      ((df.cols.zip r).filter (fun p => p.1.2 == ColType.num)).map Prod.snd) }

/-- Outcome of `df.describe()` (source line 100).  pandas raises
`ValueError` ("Cannot describe a DataFrame without columns") on a frame
with no columns; otherwise it returns the summary table (one column per
input column — the numeric summary values themselves are not inspected by
any property and are not modelled). -/
inductive DescribeResult
  | table (columns : List String)
  | valueError
deriving DecidableEq, Repr

def describe (df : DataFrame) : DescribeResult :=
  if df.cols.isEmpty then DescribeResult.valueError
  else DescribeResult.table (df.cols.map Prod.fst)

/-- `calculate_stats` (source lines 95–101): describe the numeric-column
selection, with no guard for the no-numeric-columns case. -/
def calculate_stats (df : DataFrame) : DescribeResult :=
  describe (select_number df)

/- ---------------------------------------------------------------------
The interactive menu loop with Python object identity
(source `optional_operations`, lines 45–93).
--------------------------------------------------------------------- -/

/-- A heap of DataFrame objects; references are indices. -/
structure Heap where
  objs : List DataFrame
deriving Repr

def Heap.get (h : Heap) (r : Nat) : DataFrame := h.objs.getD r emptyDF

def Heap.set (h : Heap) (r : Nat) (d : DataFrame) : Heap := ⟨h.objs.set r d⟩

/-- Allocate a fresh object, returning the new heap and its reference. -/
def Heap.alloc (h : Heap) (d : DataFrame) : Heap × Nat :=
  (⟨h.objs ++ [d]⟩, h.objs.length)

/-- One parsed line of menu input: the integer choice, with choice 0
carrying the subsequent format answer and choice 2 the column name. -/
inductive MenuInput
  | finish (fmt : String)
  | zeroNeg
  | dropCol (name : String)
  | other
deriving Repr

/-- The export path of the `'csv'` arm (source line 60):
`'Data-Analyzer/Cleaned_Dataset/{}_clean.csv'.format(file)` where `file` is
the second argument of `optional_operations`. -/
def exportPathCsv (file : String) : String :=
  "Data-Analyzer/Cleaned_Dataset/" ++ file ++ "_clean.csv"

/-- The export path of the `'excel'` arm (source line 66). -/
def exportPathXlsx (file : String) : String :=
  "Data-Analyzer/Cleaned_Dataset/" ++ file ++ "_clean.xlsx"

/-- The `while True` loop of `optional_operations` (source lines 49–93),
driven by a script of inputs; `fr0` is the reference held by the local
`df_final`.  Returns the final heap, the final `df_final` reference, and
`some path` when an export ended the loop (`none` when the script ran out
while the loop was still waiting for input).
* choice 0 lowercases the format answer; `'csv'`/`'excel'` write the export
  and return, anything else re-prompts;
* choice 1 mutates the `df_final` object in place
  (`df_final[column] = ...`);
* choice 2 rebinds `df_final` to the fresh frame `df_final.drop(...)`
  returns, or on `KeyError` prints and continues;
* any other choice prints and continues. -/
def menuLoop (h : Heap) (fr0 : Nat) (file : String) :
    List MenuInput → Heap × Nat × Option String
  | [] => (h, fr0, none)
  | MenuInput.finish fmt :: rest =>
    if lowerCodes (pychars fmt) = pychars "csv" then
      (h, fr0, some (exportPathCsv file))
    else if lowerCodes (pychars fmt) = pychars "excel" then
      (h, fr0, some (exportPathXlsx file))
    else menuLoop h fr0 file rest
  | MenuInput.zeroNeg :: rest =>
    menuLoop (h.set fr0 (zero_negatives (h.get fr0))) fr0 file rest
  | MenuInput.dropCol name :: rest =>
    match dropColumn (h.get fr0) name with
    | some d =>
      match h.alloc d with
      | (h2, r2) => menuLoop h2 r2 file rest
    | none => menuLoop h fr0 file rest
  | MenuInput.other :: rest => menuLoop h fr0 file rest

/-- `optional_operations` (source lines 45–93): `df_final = df.copy()`
allocates a fresh object, then the loop runs on it. -/
def optional_operations (h : Heap) (dfRef : Nat) (file : String)
    (script : List MenuInput) : Heap × Nat × Option String :=
  match h.alloc (h.get dfRef) with
  | (h1, fr1) => menuLoop h1 fr1 file script

/-- `remove_outliers` with object identity (source lines 13–34):
`df_cleaned = df.copy()` allocates, and each loop iteration rebinds
`df_cleaned` to the fresh frame the filter expression returns; the
argument object is never written. -/
def remove_outliersH (h : Heap) (dfRef : Nat) : Heap × Nat :=
  (numericIdxs (h.get dfRef)).foldl
    (fun q i =>
      Heap.alloc q.1 ⟨(Heap.get q.1 q.2).cols, outlierPass (Heap.get q.1 q.2).rows i⟩)
    (h.alloc (h.get dfRef))

/- ---------------------------------------------------------------------
Spec-side observers (for claims stated in the spec's vocabulary).
--------------------------------------------------------------------- -/

/-- Modelled from the spec: the "original file's base name (the name with
its original extension removed)" — the part before the last dot, the whole
name when it has no dot. -/
def specBaseName (file : String) : String :=
  if file.data.contains '.' then
    String.mk (((file.data.reverse.dropWhile (fun c => c != '.')).drop 1).reverse)
  else file

/-- Modelled from the spec: the extension of a file name — its last dot and
everything after it, `""` when it has no dot. -/
def specExtension (file : String) : String :=
  if file.data.contains '.' then
    String.mk ('.' :: (file.data.reverse.takeWhile (fun c => c != '.')).reverse)
  else ""

/- ---------------------------------------------------------------------
Concrete data used by counterexamples and witnesses.
--------------------------------------------------------------------- -/

/-- The end-to-end example dataset of the spec: columns `[age, name]`,
rows `[(25, " Alice! "), (200, "bob"), (30, "alice")]`. -/
def exampleDF : DataFrame :=
  { cols := [("age", ColType.num), ("name", ColType.obj)]
    rows :=
      [[Cell.int 25, Cell.str (pychars " Alice! ")],
       [Cell.int 200, Cell.str (pychars "bob")],
       [Cell.int 30, Cell.str (pychars "alice")]] }

/-- A dataset with no numeric columns. -/
def dfTextOnly : DataFrame :=
  { cols := [("name", ColType.obj)]
    rows := [[Cell.str (pychars "alice")], [Cell.str (pychars "bob")]] }

/-- A dataset with a negative numeric value, a non-negative one and a text
column. -/
def dfNeg : DataFrame :=
  { cols := [("a", ColType.num), ("name", ColType.obj)]
    rows :=
      [[Cell.int (-5), Cell.str (pychars "x")],
       [Cell.int 7, Cell.str (pychars "y")]] }

/- ---------------------------------------------------------------------
Helper lemmas: fractions.
--------------------------------------------------------------------- -/

theorem Frac.pos_add {a b : Frac} (ha : a.Pos) (hb : b.Pos) : (a + b).Pos := by
  show 0 < a.den * b.den
  exact mul_pos ha hb

theorem Frac.pos_sub {a b : Frac} (ha : a.Pos) (hb : b.Pos) : (a - b).Pos := by
  show 0 < a.den * b.den
  exact mul_pos ha hb

theorem Frac.pos_mul {a b : Frac} (ha : a.Pos) (hb : b.Pos) : (a * b).Pos := by
  show 0 < a.den * b.den
  exact mul_pos ha hb

theorem Frac.pos_ofInt (n : Int) : (Frac.ofInt n).Pos := by
  show (0 : Int) < 1
  exact one_pos

theorem Frac.ble_toRat {a b : Frac} (ha : a.Pos) (hb : b.Pos) :
    Frac.ble a b = true ↔ a.toRat ≤ b.toRat := by
  unfold Frac.ble Frac.toRat
  rw [decide_eq_true_iff]
  rw [div_le_div_iff₀ (by exact_mod_cast ha) (by exact_mod_cast hb)]
  constructor <;> intro h <;> exact_mod_cast h

theorem Frac.blt_toRat {a b : Frac} (ha : a.Pos) (hb : b.Pos) :
    Frac.blt a b = true ↔ a.toRat < b.toRat := by
  unfold Frac.blt Frac.toRat
  rw [decide_eq_true_iff]
  rw [div_lt_div_iff₀ (by exact_mod_cast ha) (by exact_mod_cast hb)]
  constructor <;> intro h <;> exact_mod_cast h

theorem pos_getD {l : List Frac} {d : Frac} (hl : ∀ v ∈ l, v.Pos) (hd : d.Pos)
    (n : Nat) : (l.getD n d).Pos := by
  by_cases h : n < l.length
  · rw [List.getD_eq_getElem _ _ h]
    exact hl _ (l.getElem_mem h)
  · rw [List.getD_eq_default _ _ (Nat.le_of_not_lt h)]
    exact hd

theorem mem_insertSorted {x v : Frac} : ∀ {l : List Frac},
    v ∈ insertSorted x l → v = x ∨ v ∈ l := by
  intro l
  induction l with
  | nil =>
    intro h
    simp [insertSorted] at h
    exact Or.inl h
  | cons y ys ih =>
    intro h
    unfold insertSorted at h
    split at h
    · rcases List.mem_cons.1 h with h1 | h1
      · exact Or.inl h1
      · exact Or.inr h1
    · rcases List.mem_cons.1 h with h1 | h1
      · exact Or.inr (List.mem_cons.2 (Or.inl h1))
      · rcases ih h1 with h2 | h2
        · exact Or.inl h2
        · exact Or.inr (List.mem_cons.2 (Or.inr h2))

theorem mem_sortQ {v : Frac} : ∀ {l : List Frac}, v ∈ sortQ l → v ∈ l := by
  intro l
  induction l with
  | nil => intro h; simp [sortQ] at h
  | cons x xs ih =>
    intro h
    unfold sortQ at h
    rcases mem_insertSorted h with h1 | h1
    · exact h1 ▸ List.mem_cons_self x xs
    · exact List.mem_cons.2 (Or.inr (ih h1))

theorem qinterp_pos {s : List Frac} {h : Frac} (hs : ∀ v ∈ s, v.Pos)
    (hh : h.Pos) : (qinterp s h).Pos := by
  have hlo : (s.getD (qidx h) (Frac.ofInt 0)).Pos :=
    pos_getD hs (Frac.pos_ofInt 0) _
  exact Frac.pos_add hlo
    (Frac.pos_mul (Frac.pos_sub hh (Frac.pos_ofInt _))
      (Frac.pos_sub (pos_getD hs hlo _) hlo))

theorem quantile_pos {xs : List Frac} {q : Frac} (hxs : ∀ v ∈ xs, v.Pos)
    (hq : q.Pos) : (quantile xs q).Pos := by
  have hs : ∀ v ∈ sortQ xs, v.Pos := fun v hv => hxs v (mem_sortQ hv)
  unfold quantile
  split
  · exact Frac.pos_ofInt 0
  · exact qinterp_pos hs (Frac.pos_mul hq (Frac.pos_ofInt _))

theorem iqrBounds_pos {vals : List Frac} (h : ∀ v ∈ vals, v.Pos) :
    (iqrBounds vals).1.Pos ∧ (iqrBounds vals).2.Pos := by
  have h1 : (quantile vals (fr 1 4)).Pos := quantile_pos h (by decide)
  have h3 : (quantile vals (fr 3 4)).Pos := quantile_pos h (by decide)
  have hf : (fr 3 2).Pos := by decide
  exact ⟨Frac.pos_sub h1 (Frac.pos_mul hf (Frac.pos_sub h3 h1)),
    Frac.pos_add h3 (Frac.pos_mul hf (Frac.pos_sub h3 h1))⟩

/- ---------------------------------------------------------------------
Helper lemmas: the outlier filter.
--------------------------------------------------------------------- -/

theorem mem_of_mem_outlierPass {rows : List (List Cell)} {i : Nat}
    {r : List Cell} (h : r ∈ outlierPass rows i) : r ∈ rows :=
  (List.mem_filter.1 h).1

theorem mem_of_mem_foldl_outlierPass :
    ∀ (l : List Nat) (rows : List (List Cell)) (r : List Cell),
      r ∈ List.foldl outlierPass rows l → r ∈ rows := by
  intro l
  induction l with
  | nil => intro rows r h; exact h
  | cons i t ih =>
    intro rows r h
    rw [List.foldl_cons] at h
    exact mem_of_mem_outlierPass (ih _ _ h)

theorem getD_num_mem {r : List Cell} {i : Nat} {x : Frac}
    (h : r.getD i Cell.na = Cell.num x) : Cell.num x ∈ r := by
  by_cases hi : i < r.length
  · rw [List.getD_eq_getElem _ _ hi] at h
    exact h ▸ r.getElem_mem hi
  · rw [List.getD_eq_default _ _ (Nat.le_of_not_lt hi)] at h
    exact absurd h (by simp)

theorem colVals_mem {i : Nat} {rows : List (List Cell)} {v : Frac}
    (h : v ∈ colVals i rows) : ∃ r ∈ rows, r.getD i Cell.na = Cell.num v := by
  rcases List.mem_filterMap.1 h with ⟨r, hr, hf⟩
  refine ⟨r, hr, ?_⟩
  cases hc : r.getD i Cell.na with
  | num x => rw [hc] at hf; simp at hf; rw [hf]
  | str s => rw [hc] at hf; simp at hf
  | na => rw [hc] at hf; simp at hf

theorem numCellsPos_val {df : DataFrame} (hpos : NumCellsPos df)
    {r : List Cell} (hr : r ∈ df.rows) {i : Nat} {x : Frac}
    (hx : r.getD i Cell.na = Cell.num x) : x.Pos := by
  have h := hpos r hr _ (getD_num_mem hx)
  unfold Frac.Pos
  simpa [Cell.posOk] using h

theorem colVals_pos {df : DataFrame} (hpos : NumCellsPos df) {i : Nat}
    {rows : List (List Cell)} (hsub : ∀ r ∈ rows, r ∈ df.rows) :
    ∀ v ∈ colVals i rows, v.Pos := by
  intro v hv
  rcases colVals_mem hv with ⟨r, hr, hcell⟩
  exact numCellsPos_val hpos (hsub r hr) hcell

/-- C1: after the outlier-removal stage, every value remaining in a numeric
column lies (inclusively) within `[Q1 − 1.5·IQR, Q3 + 1.5·IQR]` where the
quartiles are computed with linear interpolation on that column's
distribution at the start of the column's pass, i.e. on the dataset already
filtered by the bounds of the numeric columns processed before it (`k`
ranges over positions in the pass order `numericIdxs df`). -/
theorem remove_outliers_inBounds (df : DataFrame) (k : Nat)
    (hk : k < (numericIdxs df).length) (hpos : NumCellsPos df) :
    ∀ r ∈ (remove_outliers df).rows, ∀ x : Frac,
      r.getD ((numericIdxs df).getD k 0) Cell.na = Cell.num x →
      (iqrBounds (colVals ((numericIdxs df).getD k 0)
          (List.foldl outlierPass df.rows ((numericIdxs df).take k)))).1.toRat
          ≤ x.toRat ∧
      x.toRat ≤
        (iqrBounds (colVals ((numericIdxs df).getD k 0)
          (List.foldl outlierPass df.rows ((numericIdxs df).take k)))).2.toRat := by
  intro r hr x hx
  have hsplit : numericIdxs df
      = (numericIdxs df).take k
        ++ (numericIdxs df).getD k 0 :: (numericIdxs df).drop (k + 1) := by
    conv_lhs => rw [← List.take_append_drop k (numericIdxs df)]
    rw [List.drop_eq_getElem_cons hk, List.getD_eq_getElem _ _ hk]
  have hrows : (remove_outliers df).rows
      = List.foldl outlierPass
          (outlierPass (List.foldl outlierPass df.rows ((numericIdxs df).take k))
            ((numericIdxs df).getD k 0))
          ((numericIdxs df).drop (k + 1)) := by
    show List.foldl outlierPass df.rows (numericIdxs df) = _
    conv_lhs => rw [hsplit]
    rw [List.foldl_append, List.foldl_cons]
  rw [hrows] at hr
  have hmem : r ∈ outlierPass
      (List.foldl outlierPass df.rows ((numericIdxs df).take k))
      ((numericIdxs df).getD k 0) := mem_of_mem_foldl_outlierPass _ _ _ hr
  have hfilter : inBounds
      (iqrBounds (colVals ((numericIdxs df).getD k 0)
        (List.foldl outlierPass df.rows ((numericIdxs df).take k)))).1
      (iqrBounds (colVals ((numericIdxs df).getD k 0)
        (List.foldl outlierPass df.rows ((numericIdxs df).take k)))).2
      (r.getD ((numericIdxs df).getD k 0) Cell.na) = true :=
    (List.mem_filter.1 hmem).2
  rw [hx] at hfilter
  simp only [inBounds, Bool.and_eq_true] at hfilter
  have hsub : ∀ r' ∈ List.foldl outlierPass df.rows ((numericIdxs df).take k),
      r' ∈ df.rows := fun r' h' => mem_of_mem_foldl_outlierPass _ _ _ h'
  have hvals := colVals_pos hpos (i := (numericIdxs df).getD k 0) hsub
  have hbounds := iqrBounds_pos hvals
  have hxpos : x.Pos :=
    numCellsPos_val hpos (hsub r (mem_of_mem_outlierPass hmem)) hx
  exact ⟨(Frac.ble_toRat hbounds.1 hxpos).1 hfilter.1,
    (Frac.ble_toRat hxpos hbounds.2).1 hfilter.2⟩

/-- Witness for C1: the example dataset, its only numeric column (`k = 0`),
and the surviving row with value 25. -/
theorem remove_outliers_inBounds_witness :
    (0 < (numericIdxs exampleDF).length ∧ NumCellsPos exampleDF ∧
      [Cell.int 25, Cell.str (pychars " Alice! ")] ∈ (remove_outliers exampleDF).rows ∧
      ([Cell.int 25, Cell.str (pychars " Alice! ")] : List Cell).getD
        ((numericIdxs exampleDF).getD 0 0) Cell.na = Cell.num (Frac.ofInt 25)) ∧
    ((iqrBounds (colVals ((numericIdxs exampleDF).getD 0 0)
        (List.foldl outlierPass exampleDF.rows ((numericIdxs exampleDF).take 0)))).1.toRat
        ≤ (Frac.ofInt 25).toRat ∧
      (Frac.ofInt 25).toRat ≤
        (iqrBounds (colVals ((numericIdxs exampleDF).getD 0 0)
          (List.foldl outlierPass exampleDF.rows ((numericIdxs exampleDF).take 0)))).2.toRat) :=
  ⟨⟨by decide, by decide, by decide, by decide⟩,
    remove_outliers_inBounds exampleDF 0 (by decide) (by decide)
      [Cell.int 25, Cell.str (pychars " Alice! ")] (by decide)
      (Frac.ofInt 25) (by decide)⟩

/- ---------------------------------------------------------------------
C2: the end-to-end example.
--------------------------------------------------------------------- -/

/-- C2 counterexample: on the spec's end-to-end input the pipeline does NOT
remove the row with age 200 — with three points the IQR bounds are wide
(`[-103.75, 246.25]`), not collapsed — and the final frame has 3 rows,
not 2. -/
theorem cleanPipeline_example_counterexample :
    (cleanPipeline exampleDF).rows.length ≠ 2 ∧
    (cleanPipeline exampleDF).rows.any
        (fun r => rowEqv r [Cell.int 200, Cell.str (pychars "bob")]) = true := by
  decide

/-- C2 amended: on the example input, missing-value removal and duplicate
removal change nothing, outlier removal keeps all three rows (200 lies
inside `[Q1 − 1.5·IQR, Q3 + 1.5·IQR] = [-103.75, 246.25]`), normalization
maps the names to `alice`, `bob`, `alice` with no re-deduplication, and the
final Dataset has exactly these 3 rows. -/
theorem cleanPipeline_example_result :
    cleanPipeline exampleDF =
      { cols := [("age", ColType.num), ("name", ColType.obj)]
        rows :=
          [[Cell.int 25, Cell.str (pychars "alice")],
           [Cell.int 200, Cell.str (pychars "bob")],
           [Cell.int 30, Cell.str (pychars "alice")]] } := by
  decide

/- ---------------------------------------------------------------------
C3: string normalization.
--------------------------------------------------------------------- -/

theorem lowerNat_idem (n : Nat) : lowerNat (lowerNat n) = lowerNat n := by
  by_cases h : 65 ≤ n ∧ n ≤ 90
  · simp only [lowerNat, if_pos h]
    rw [if_neg (by omega)]
  · simp only [lowerNat, if_neg h]

theorem mem_stripL {c : Nat} {l : List Nat} (h : c ∈ stripL l) : c ∈ l := by
  unfold stripL at h
  rw [List.mem_reverse] at h
  have h1 := List.Sublist.mem h (List.dropWhile_sublist isSpaceNat)
  rw [List.mem_reverse] at h1
  exact List.Sublist.mem h1 (List.dropWhile_sublist isSpaceNat)

theorem mem_cleanValue_fixed {c : Nat} {l : List Nat} (h : c ∈ cleanValue l) :
    lowerNat c = c := by
  unfold cleanValue at h
  have h1 := mem_stripL (List.mem_of_mem_filter h)
  unfold lowerCodes at h1
  rcases List.mem_map.1 h1 with ⟨d, _, hd⟩
  rw [← hd]
  exact lowerNat_idem d

theorem mem_cleanValue_keep {c : Nat} {l : List Nat} (h : c ∈ cleanValue l) :
    isKeepNat c = true :=
  (List.mem_filter.1 h).2

/-- C3 counterexample: `"! a"` normalizes to `" a"` (the strip happens
before the `!` is deleted), and normalizing again strips the now-leading
space, giving `"a"` — so one concrete string value breaks idempotence. -/
theorem cleanValue_not_idempotent :
    cleanValue (cleanValue (pychars "! a")) ≠ cleanValue (pychars "! a") := by
  decide

/-- C3 amended: normalization is not idempotent in general; applying it
twice equals trimming the surrounding whitespace of the once-normalized
value (hence it is idempotent exactly on values whose normal form has no
surrounding whitespace). -/
theorem cleanValue_twice (l : List Nat) :
    cleanValue (cleanValue l) = stripL (cleanValue l) := by
  have hmapfix : lowerCodes (cleanValue l) = cleanValue l := by
    unfold lowerCodes
    rw [List.map_congr_left (fun c hc => mem_cleanValue_fixed hc)]
    simp
  show (stripL (lowerCodes (cleanValue l))).filter isKeepNat = stripL (cleanValue l)
  rw [hmapfix]
  exact List.filter_eq_self.2 (fun a ha => mem_cleanValue_keep (mem_stripL ha))

/- ---------------------------------------------------------------------
C4: behaviour after a failed load.
--------------------------------------------------------------------- -/

/-- C4: on a failing load the script does not halt at the load phase — the
`except`/`else` arms only print, `df` stays unassigned, control reaches
`numOfRows = df.shape[0]`, and that reference to the undefined Dataset
raises `NameError` (a crash, before any cleaning stage); a successful read
continues normally. -/
theorem loadFailure_reaches_nameError :
    (∀ csvRead xlsxRead : Option DataFrame,
        loadPhase "data.txt" csvRead xlsxRead = none) ∧
    detectFormat "data.txt" = LoadFmt.unsupported ∧
    afterLoad (loadPhase "data.txt" none none) = PostLoad.nameError ∧
    afterLoad (loadPhase "data.csv" none none) = PostLoad.nameError ∧
    (∀ d : DataFrame,
      afterLoad (loadPhase "data.csv" (some d) none) = PostLoad.ok d.rows.length) := by
  refine ⟨fun c x => ?_, by decide, by decide, by decide, fun d => ?_⟩
  · unfold loadPhase
    rw [show detectFormat "data.txt" = LoadFmt.unsupported from by decide]
  · unfold loadPhase
    rw [show detectFormat "data.csv" = LoadFmt.csv from by decide]
    rfl

/- ---------------------------------------------------------------------
C5: the export path.
--------------------------------------------------------------------- -/

/-- C5 counterexample: for the original file name `data.csv` the export
path appends `_clean.csv` to the FULL file name (`optional_operations`
receives `fileName`, extension included), giving `.../data.csv_clean.csv`
— not the spec's `.../data_clean.csv` derived from the base name. -/
theorem export_path_counterexample :
    (optional_operations ⟨[exampleDF]⟩ 0 "data.csv" [MenuInput.finish "csv"]).2.2
        = some "Data-Analyzer/Cleaned_Dataset/data.csv_clean.csv" ∧
    specBaseName "data.csv" = "data" ∧
    (optional_operations ⟨[exampleDF]⟩ 0 "data.csv" [MenuInput.finish "csv"]).2.2
        ≠ some ("Data-Analyzer/Cleaned_Dataset/"
            ++ specBaseName "data.csv" ++ "_clean.csv") := by
  refine ⟨by decide, by decide, by decide⟩

/-- C5 amended: on Finish with a valid format (case-insensitively `csv` or
`excel`) the export path is the output directory plus the FULL original
file name (its extension included) plus `_clean` and the new extension. -/
theorem export_path_uses_full_name (h : Heap) (dfRef : Nat) (file fmt : String)
    (rest : List MenuInput) :
    (lowerCodes (pychars fmt) = pychars "csv" →
      (optional_operations h dfRef file (MenuInput.finish fmt :: rest)).2.2
        = some ("Data-Analyzer/Cleaned_Dataset/" ++ file ++ "_clean.csv")) ∧
    (lowerCodes (pychars fmt) = pychars "excel" →
      (optional_operations h dfRef file (MenuInput.finish fmt :: rest)).2.2
        = some ("Data-Analyzer/Cleaned_Dataset/" ++ file ++ "_clean.xlsx")) := by
  constructor
  · intro hf
    unfold optional_operations
    simp [menuLoop, hf, exportPathCsv]
  · intro hf
    have hj : pychars "excel" ≠ pychars "csv" := by decide
    unfold optional_operations
    simp [menuLoop, hf, hj, exportPathXlsx]

/-- Witness for C5 at the format answers `CSV` and `Excel`. -/
theorem export_path_uses_full_name_witness :
    (lowerCodes (pychars "CSV") = pychars "csv" ∧
      (optional_operations ⟨[exampleDF]⟩ 0 "data.csv"
          [MenuInput.finish "CSV"]).2.2
        = some ("Data-Analyzer/Cleaned_Dataset/" ++ "data.csv" ++ "_clean.csv")) ∧
    (lowerCodes (pychars "Excel") = pychars "excel" ∧
      (optional_operations ⟨[exampleDF]⟩ 0 "data.csv"
          [MenuInput.finish "Excel"]).2.2
        = some ("Data-Analyzer/Cleaned_Dataset/" ++ "data.csv" ++ "_clean.xlsx")) :=
  ⟨⟨by decide,
    (export_path_uses_full_name ⟨[exampleDF]⟩ 0 "data.csv" "CSV" []).1 (by decide)⟩,
   ⟨by decide,
    (export_path_uses_full_name ⟨[exampleDF]⟩ 0 "data.csv" "Excel" []).2 (by decide)⟩⟩

/- ---------------------------------------------------------------------
C6: stats with no numeric columns.
--------------------------------------------------------------------- -/

/-- C6: `calculate_stats` has no explicit handling for a Dataset with no
numeric columns: the numeric selection is empty and `describe()` raises
`ValueError` ("Cannot describe a DataFrame without columns") instead of
returning an empty summary. -/
theorem calculate_stats_no_numeric (df : DataFrame)
    (h : ∀ p ∈ df.cols, p.2 = ColType.obj) :
    calculate_stats df = DescribeResult.valueError := by
  have hcols : (select_number df).cols = [] :=
    List.filter_eq_nil_iff.2 (fun p hp => by simp [h p hp])
  unfold calculate_stats
  simp [describe, hcols]

/-- Witness for C6 at a concrete text-only dataset. -/
theorem calculate_stats_no_numeric_witness :
    (∀ p ∈ dfTextOnly.cols, p.2 = ColType.obj) ∧
    calculate_stats dfTextOnly = DescribeResult.valueError :=
  ⟨by decide, calculate_stats_no_numeric dfTextOnly (by decide)⟩

/- ---------------------------------------------------------------------
C7: format dispatch.
--------------------------------------------------------------------- -/

theorem startsHere_append (pat tail : List Nat) :
    startsHere pat (pat ++ tail) = true := by
  induction pat with
  | nil => rfl
  | cons p ps ih => simp [startsHere, ih]

theorem containsSub_append (stem pat : List Nat) :
    containsSub pat (stem ++ pat) = true := by
  induction stem with
  | nil =>
    cases pat with
    | nil => rfl
    | cons p ps =>
      have hs := startsHere_append (p :: ps) []
      rw [List.append_nil] at hs
      simp [containsSub, hs]
  | cons s st ih => simp [containsSub, ih]

/-- C7 counterexample: dispatch is not by extension — `data.csv.txt` has
extension `.txt` yet is sent to the CSV reader, because the code tests
`'.csv' in fileName` (substring containment). -/
theorem detectFormat_counterexample :
    detectFormat "data.csv.txt" = LoadFmt.csv ∧
    specExtension "data.csv.txt" = ".txt" ∧
    specExtension "data.csv.txt" ≠ ".csv" := by
  refine ⟨by decide, by decide, by decide⟩

/-- C7 amended: dispatch is by substring containment, in code order: any
name containing `.csv` is read as CSV; otherwise any containing `.xlsx` is
read as Excel (after the sheet prompt); all remaining names are rejected
with no reader consulted.  In particular every name that truly ends in
`.csv` is read as CSV. -/
theorem detectFormat_substring (name : String) :
    (containsSub (pychars ".csv") (pychars name) = true →
      detectFormat name = LoadFmt.csv) ∧
    (containsSub (pychars ".csv") (pychars name) = false →
      containsSub (pychars ".xlsx") (pychars name) = true →
      detectFormat name = LoadFmt.xlsx) ∧
    (containsSub (pychars ".csv") (pychars name) = false →
      containsSub (pychars ".xlsx") (pychars name) = false →
      detectFormat name = LoadFmt.unsupported ∧
      ∀ csvRead xlsxRead : Option DataFrame,
        loadPhase name csvRead xlsxRead = none) ∧
    (∀ stem : List Nat, pychars name = stem ++ pychars ".csv" →
      detectFormat name = LoadFmt.csv) := by
  refine ⟨fun h1 => ?_, fun h1 h2 => ?_, fun h1 h2 => ⟨?_, fun c x => ?_⟩,
    fun stem hs => ?_⟩
  · simp [detectFormat, h1]
  · simp [detectFormat, h1, h2]
  · simp [detectFormat, h1, h2]
  · unfold loadPhase
    rw [show detectFormat name = LoadFmt.unsupported from by
      simp [detectFormat, h1, h2]]
  · have hc := containsSub_append stem (pychars ".csv")
    rw [← hs] at hc
    simp [detectFormat, hc]

/-- Witness for C7 at a name with true extension `.csv`. -/
theorem detectFormat_substring_witness :
    containsSub (pychars ".csv") (pychars "report.csv") = true ∧
    detectFormat "report.csv" = LoadFmt.csv :=
  ⟨by decide, (detectFormat_substring "report.csv").1 (by decide)⟩

/- ---------------------------------------------------------------------
C8: zero-negatives.
--------------------------------------------------------------------- -/

theorem getD_map_lt {α β : Type _} (f : α → β) (l : List α) (d : β) {j : Nat}
    (hj : j < l.length) : (l.map f).getD j d = f (l[j]) := by
  rw [List.getD_eq_getElem _ _ (by simpa using hj)]
  exact List.getElem_map _

theorem Frac.toRat_ofInt (n : Int) : (Frac.ofInt n).toRat = (n : ℚ) := by
  simp [Frac.toRat, Frac.ofInt]

theorem Frac.blt_zero {x : Frac} (hx : x.Pos) :
    Frac.blt x (Frac.ofInt 0) = true ↔ x.toRat < 0 := by
  rw [Frac.blt_toRat hx (by decide), Frac.toRat_ofInt]
  norm_num

/-- C8: after the zero-negatives menu operation, on every numeric column
every originally non-negative value is unchanged, every originally negative
value is replaced by exactly zero, every resulting value is non-negative,
and non-numeric columns, the column list and the row count are unchanged. -/
theorem zero_negatives_spec (df : DataFrame) (j i : Nat)
    (hj : j < df.rows.length) (hi : i < (df.rows.getD j []).length)
    (hic : i < df.cols.length) :
    (zero_negatives df).cols = df.cols ∧
    (zero_negatives df).rows.length = df.rows.length ∧
    (colTypeAt df i = ColType.num →
      ∀ x : Frac, x.Pos →
        (df.rows.getD j []).getD i Cell.na = Cell.num x →
        ((0 ≤ x.toRat →
            ((zero_negatives df).rows.getD j []).getD i Cell.na = Cell.num x) ∧
         (x.toRat < 0 →
            ((zero_negatives df).rows.getD j []).getD i Cell.na = Cell.int 0) ∧
         (∀ y : Frac,
            ((zero_negatives df).rows.getD j []).getD i Cell.na = Cell.num y →
            0 ≤ y.toRat))) ∧
    (colTypeAt df i = ColType.obj →
      ((zero_negatives df).rows.getD j []).getD i Cell.na
        = (df.rows.getD j []).getD i Cell.na) := by
  have hrow : (zero_negatives df).rows.getD j []
      = List.zipWith zeroNegCell (df.cols.map Prod.snd) (df.rows.getD j []) := by
    show (df.rows.map _).getD j [] = _
    rw [getD_map_lt _ _ _ hj, List.getD_eq_getElem _ _ hj]
  have hcell : ((zero_negatives df).rows.getD j []).getD i Cell.na
      = zeroNegCell (colTypeAt df i) ((df.rows.getD j []).getD i Cell.na) := by
    rw [hrow]
    have hic2 : i < (df.cols.map Prod.snd).length := by simpa using hic
    have hiz : i < (List.zipWith zeroNegCell (df.cols.map Prod.snd)
        (df.rows.getD j [])).length := by
      rw [List.length_zipWith]
      omega
    rw [List.getD_eq_getElem _ _ hiz, List.getD_eq_getElem _ _ hi,
      List.getElem_zipWith]
    congr 1
    rw [List.getElem_map]
    unfold colTypeAt
    rw [List.getD_eq_getElem _ _ hic]
  refine ⟨rfl, by simp [zero_negatives, mapCells], ?_, ?_⟩
  · intro ht x hxpos hx
    have hcv : ((zero_negatives df).rows.getD j []).getD i Cell.na
        = Cell.num (if Frac.blt x (Frac.ofInt 0) then Frac.ofInt 0 else x) := by
      rw [hcell, hx, ht]
      rfl
    refine ⟨?_, ?_, ?_⟩
    · intro h0
      have hb : ¬ Frac.blt x (Frac.ofInt 0) = true := by
        rw [Frac.blt_zero hxpos]
        exact not_lt.2 h0
      rw [hcv, if_neg hb]
    · intro h0
      rw [hcv, if_pos ((Frac.blt_zero hxpos).2 h0)]
      rfl
    · intro y hy
      rw [hcv] at hy
      by_cases hb : Frac.blt x (Frac.ofInt 0) = true
      · rw [if_pos hb] at hy
        injection hy with h'
        rw [← h', Frac.toRat_ofInt]
        simp
      · rw [if_neg hb] at hy
        injection hy with h'
        rw [← h']
        rw [Frac.blt_zero hxpos] at hb
        exact not_lt.1 hb
  · intro ht
    rw [hcell, ht]
    cases (df.rows.getD j []).getD i Cell.na <;> rfl

/-- Witness for C8 at a dataset with a negative value (`−5` in numeric
column 0 of row 0). -/
theorem zero_negatives_spec_witness :
    (0 < dfNeg.rows.length ∧ 0 < (dfNeg.rows.getD 0 []).length ∧
      0 < dfNeg.cols.length) ∧
    ((zero_negatives dfNeg).cols = dfNeg.cols ∧
     (zero_negatives dfNeg).rows.length = dfNeg.rows.length ∧
     (colTypeAt dfNeg 0 = ColType.num →
       ∀ x : Frac, x.Pos →
         (dfNeg.rows.getD 0 []).getD 0 Cell.na = Cell.num x →
         ((0 ≤ x.toRat →
             ((zero_negatives dfNeg).rows.getD 0 []).getD 0 Cell.na = Cell.num x) ∧
          (x.toRat < 0 →
             ((zero_negatives dfNeg).rows.getD 0 []).getD 0 Cell.na = Cell.int 0) ∧
          (∀ y : Frac,
             ((zero_negatives dfNeg).rows.getD 0 []).getD 0 Cell.na = Cell.num y →
             0 ≤ y.toRat))) ∧
     (colTypeAt dfNeg 0 = ColType.obj →
       ((zero_negatives dfNeg).rows.getD 0 []).getD 0 Cell.na
         = (dfNeg.rows.getD 0 []).getD 0 Cell.na)) :=
  ⟨⟨by decide, by decide, by decide⟩,
    zero_negatives_spec dfNeg 0 0 (by decide) (by decide) (by decide)⟩

/- ---------------------------------------------------------------------
C9: drop-column.
--------------------------------------------------------------------- -/

theorem zip_map_fst_snd {α β : Type _} (l : List (α × β)) :
    (l.map Prod.fst).zip (l.map Prod.snd) = l := by
  induction l with
  | nil => rfl
  | cons a t ih => simp [ih]

theorem zip_filter_snd {α β : Type _} (as : List α) (bs : List β) (p : α → Bool)
    (hlen : as.length = bs.length) :
    (as.filter p).zip (((as.zip bs).filter (fun q => p q.1)).map Prod.snd)
      = (as.zip bs).filter (fun q => p q.1) := by
  have hfst : (as.zip bs).map Prod.fst = as :=
    List.map_fst_zip as bs (le_of_eq hlen)
  have h1 : as.filter p = ((as.zip bs).filter (fun q => p q.1)).map Prod.fst := by
    conv_lhs => rw [← hfst]
    exact List.filter_map Prod.fst (as.zip bs)
  rw [h1]
  exact zip_map_fst_snd _

/-- C9: the drop-column menu operation with an existing name removes
exactly that column — the remaining header is the original minus that
column, each row keeps exactly the (column, value) pairs of the other
columns, the row count is unchanged — and no error is reported; with an
absent name the `except` arm reports an error and the Dataset is returned
unchanged.  In both cases the loop continues: a drop-column input alone
never produces an export. -/
theorem menuDropColumn_spec (df : DataFrame) (name : String)
    (hwf : ∀ r ∈ df.rows, r.length = df.cols.length) :
    (name ∈ df.cols.map Prod.fst →
      (menuDropColumn df name).2 = false ∧
      (menuDropColumn df name).1.cols = df.cols.filter (fun p => p.1 != name) ∧
      name ∉ (menuDropColumn df name).1.cols.map Prod.fst ∧
      (menuDropColumn df name).1.rows.length = df.rows.length ∧
      (∀ j, j < df.rows.length →
        (menuDropColumn df name).1.cols.zip
            ((menuDropColumn df name).1.rows.getD j [])
          = (df.cols.zip (df.rows.getD j [])).filter
              (fun p => p.1.1 != name))) ∧
    (name ∉ df.cols.map Prod.fst → menuDropColumn df name = (df, true)) ∧
    (∀ (h : Heap) (r : Nat) (file : String),
      (menuLoop h r file [MenuInput.dropCol name]).2.2 = none) := by
  refine ⟨?_, ?_, ?_⟩
  · intro hmem
    have hd : menuDropColumn df name
        = ({ cols := df.cols.filter (fun p => p.1 != name)
             rows := df.rows.map (fun r =>
               ((df.cols.zip r).filter (fun p => p.1.1 != name)).map
                 Prod.snd) }, false) := by
      unfold menuDropColumn dropColumn
      rw [if_pos hmem]
    refine ⟨by rw [hd], by rw [hd], ?_, by rw [hd]; simp, ?_⟩
    · intro hcontra
      rw [hd] at hcontra
      rcases List.mem_map.1 hcontra with ⟨p, hp, hpname⟩
      have hne := (List.mem_filter.1 hp).2
      rw [hpname] at hne
      simp at hne
    · intro j hj
      rw [hd]
      show (df.cols.filter (fun p => p.1 != name)).zip
          ((df.rows.map _).getD j []) = _
      rw [getD_map_lt _ _ _ hj, List.getD_eq_getElem _ _ hj]
      exact zip_filter_snd df.cols (df.rows[j]) (fun c => c.1 != name)
        (hwf (df.rows[j]) (df.rows.getElem_mem hj)).symm
  · intro hmem
    unfold menuDropColumn dropColumn
    rw [if_neg hmem]
  · intro h r file
    show (match dropColumn (h.get r) name with
      | some d => menuLoop (h.alloc d).1 (h.alloc d).2 file []
      | none => menuLoop h r file []).2.2 = none
    cases dropColumn (h.get r) name <;> rfl

/-- Witness for C9 at a two-column dataset, dropping the existing column
`a` and the absent column `zz`. -/
theorem menuDropColumn_spec_witness :
    (∀ r ∈ dfNeg.rows, r.length = dfNeg.cols.length) ∧
    (("a" ∈ dfNeg.cols.map Prod.fst →
      (menuDropColumn dfNeg "a").2 = false ∧
      (menuDropColumn dfNeg "a").1.cols
        = dfNeg.cols.filter (fun p => p.1 != "a") ∧
      "a" ∉ (menuDropColumn dfNeg "a").1.cols.map Prod.fst ∧
      (menuDropColumn dfNeg "a").1.rows.length = dfNeg.rows.length ∧
      (∀ j, j < dfNeg.rows.length →
        (menuDropColumn dfNeg "a").1.cols.zip
            ((menuDropColumn dfNeg "a").1.rows.getD j [])
          = (dfNeg.cols.zip (dfNeg.rows.getD j [])).filter
              (fun p => p.1.1 != "a"))) ∧
    ("a" ∉ dfNeg.cols.map Prod.fst → menuDropColumn dfNeg "a" = (dfNeg, true)) ∧
    (∀ (h : Heap) (r : Nat) (file : String),
      (menuLoop h r file [MenuInput.dropCol "a"]).2.2 = none)) ∧
    (menuDropColumn dfNeg "zz" = (dfNeg, true)) :=
  ⟨by decide, menuDropColumn_spec dfNeg "a" (by decide),
    (menuDropColumn_spec dfNeg "zz" (by decide)).2.1 (by decide)⟩

/- ---------------------------------------------------------------------
C10: the copies protect the argument object.
--------------------------------------------------------------------- -/

theorem Heap.get_alloc_lt {h : Heap} {d : DataFrame} {r : Nat}
    (hr : r < h.objs.length) : (h.alloc d).1.get r = h.get r := by
  show (h.objs ++ [d]).getD r emptyDF = h.objs.getD r emptyDF
  exact List.getD_append _ _ _ _ hr

theorem Heap.length_alloc {h : Heap} {d : DataFrame} :
    (h.alloc d).1.objs.length = h.objs.length + 1 := by
  show (h.objs ++ [d]).length = _
  simp

theorem Heap.get_set_ne {h : Heap} {d : DataFrame} {r s : Nat}
    (hne : r ≠ s) : (h.set s d).get r = h.get r := by
  show (h.objs.set s d).getD r emptyDF = h.objs.getD r emptyDF
  by_cases hlt : r < h.objs.length
  · rw [List.getD_eq_getElem _ _ (by simpa using hlt),
      List.getD_eq_getElem _ _ hlt]
    exact List.getElem_set_ne (fun hc => hne (hc.symm)) _
  · rw [List.getD_eq_default _ _ (by simpa using Nat.le_of_not_lt hlt),
      List.getD_eq_default _ _ (Nat.le_of_not_lt hlt)]

theorem menuLoop_get_preserved (file : String) :
    ∀ (script : List MenuInput) (h : Heap) (fr0 dfRef : Nat),
      dfRef < h.objs.length → dfRef ≠ fr0 →
      (menuLoop h fr0 file script).1.get dfRef = h.get dfRef := by
  intro script
  induction script with
  | nil => intro h fr0 dfRef _ _; rfl
  | cons inp rest ih =>
    intro h fr0 dfRef hlt hne
    cases inp with
    | finish fmt =>
      unfold menuLoop
      by_cases h1 : lowerCodes (pychars fmt) = pychars "csv"
      · rw [if_pos h1]
      · rw [if_neg h1]
        by_cases h2 : lowerCodes (pychars fmt) = pychars "excel"
        · rw [if_pos h2]
        · rw [if_neg h2]
          exact ih h fr0 dfRef hlt hne
    | zeroNeg =>
      unfold menuLoop
      exact (ih _ fr0 dfRef (by simpa [Heap.set] using hlt) hne).trans
        (Heap.get_set_ne hne)
    | dropCol nm =>
      unfold menuLoop
      cases dropColumn (h.get fr0) nm with
      | some d =>
        show (menuLoop ⟨h.objs ++ [d]⟩ h.objs.length file rest).1.get dfRef
          = h.get dfRef
        refine (ih ⟨h.objs ++ [d]⟩ h.objs.length dfRef ?_ ?_).trans ?_
        · simp only [List.length_append, List.length_cons, List.length_nil]
          omega
        · omega
        · show (h.objs ++ [d]).getD dfRef emptyDF = h.objs.getD dfRef emptyDF
          exact List.getD_append _ _ _ _ hlt
      | none => exact ih h fr0 dfRef hlt hne
    | other =>
      unfold menuLoop
      exact ih h fr0 dfRef hlt hne

theorem foldl_alloc_get_preserved (dfRef : Nat) :
    ∀ (l : List Nat) (p : Heap × Nat), dfRef < p.1.objs.length →
      (l.foldl (fun q i =>
          Heap.alloc q.1
            ⟨(Heap.get q.1 q.2).cols, outlierPass (Heap.get q.1 q.2).rows i⟩)
          p).1.get dfRef = p.1.get dfRef ∧
      dfRef < (l.foldl (fun q i =>
          Heap.alloc q.1
            ⟨(Heap.get q.1 q.2).cols, outlierPass (Heap.get q.1 q.2).rows i⟩)
          p).1.objs.length := by
  intro l
  induction l with
  | nil => intro p hp; exact ⟨rfl, hp⟩
  | cons i t ih =>
    intro p hp
    rw [List.foldl_cons]
    have hstep2 : dfRef < (Heap.alloc p.1
        ⟨(Heap.get p.1 p.2).cols, outlierPass (Heap.get p.1 p.2).rows i⟩).1.objs.length := by
      rw [Heap.length_alloc]
      omega
    rcases ih _ hstep2 with ⟨ha, hb⟩
    exact ⟨ha.trans (Heap.get_alloc_lt hp), hb⟩

/-- C10: both `remove_outliers` and `optional_operations` work on a copy of
their argument: after either call, the DataFrame object passed in (`dfRef`)
holds exactly the same frame — columns, rows and values — as before. -/
theorem copy_preserves_argument (h : Heap) (dfRef : Nat) (file : String)
    (script : List MenuInput) (hr : dfRef < h.objs.length) :
    (remove_outliersH h dfRef).1.get dfRef = h.get dfRef ∧
    (optional_operations h dfRef file script).1.get dfRef = h.get dfRef := by
  constructor
  · unfold remove_outliersH
    have h0 : dfRef < (h.alloc (h.get dfRef)).1.objs.length := by
      rw [Heap.length_alloc]
      omega
    exact ((foldl_alloc_get_preserved dfRef _ _ h0).1).trans
      (Heap.get_alloc_lt hr)
  · unfold optional_operations
    show (menuLoop ⟨h.objs ++ [h.get dfRef]⟩ h.objs.length file script).1.get
        dfRef = h.get dfRef
    refine (menuLoop_get_preserved file script _ _ dfRef ?_ (Nat.ne_of_lt hr)).trans ?_
    · simp only [List.length_append, List.length_cons, List.length_nil]
      omega
    · show (h.objs ++ [h.get dfRef]).getD dfRef emptyDF = h.objs.getD dfRef emptyDF
      exact List.getD_append _ _ _ _ hr

/-- Witness for C10 at a one-object heap and a script exercising every
menu arm. -/
theorem copy_preserves_argument_witness :
    0 < (⟨[exampleDF]⟩ : Heap).objs.length ∧
    ((remove_outliersH ⟨[exampleDF]⟩ 0).1.get 0 = (⟨[exampleDF]⟩ : Heap).get 0 ∧
     (optional_operations ⟨[exampleDF]⟩ 0 "data.csv"
        [MenuInput.zeroNeg, MenuInput.dropCol "age", MenuInput.other,
         MenuInput.finish "csv"]).1.get 0 = (⟨[exampleDF]⟩ : Heap).get 0) :=
  ⟨by decide,
    copy_preserves_argument ⟨[exampleDF]⟩ 0 "data.csv"
      [MenuInput.zeroNeg, MenuInput.dropCol "age", MenuInput.other,
       MenuInput.finish "csv"] (by decide)⟩
